import Mathlib

/-
Verification of the sentiment-bot core (src/main.py) against its
natural-language specification.

Shallow embedding conventions:
* Python floats are modelled as exact rationals (ℚ); the properties checked
  here (saturation at 100, emptiness, 0/0 being dropped) are float-exact.
* Calendar dates are modelled as natural-number day keys: a millisecond
  timestamp t corresponds to day t / 86400000, matching the day granularity
  of strftime("%Y-%m-%d") applied to datetime.fromtimestamp(t / 1000).
* Network fetches are external inputs: a fetcher's try-block is modelled as
  an `Except Unit payload` argument (error = any exception raised while
  fetching or decoding), and yfinance download results as
  `Option (List PriceRow)` (none = empty dataframe or download error).
* HTML rendering carries no decision logic beyond the branch on a missing
  stats record and on the danger-day warning; `generate_card_html` is
  modelled at that branch level by the inductive `Card`.
-/

namespace SentimentBot

/-- LIMIT_LOW = 25 (src/main.py line 16). -/
def LIMIT_LOW : Int := 25

/-- LIMIT_HIGH = 75 (src/main.py line 17). -/
def LIMIT_HIGH : Int := 75

/-- DANGER_DAYS_THRESHOLD = 10 (src/main.py line 18). -/
def DANGER_DAYS_THRESHOLD : Int := 10

/-- One normalized observation: a day key and an integer sentiment value,
corresponding to the dicts \x7bdate, value\x7d built by the fetchers. -/
structure SentimentPoint where
  date : Nat
  value : Int
deriving Repr, DecidableEq

/-- Python int() applied to a float: truncation toward zero, on the exact
rational model. -/
def pyInt (q : ℚ) : Int :=
  if q < 0 then -(⌊-q⌋) else ⌊q⌋

/-- The result record of calc_stats (src/main.py lines 133-139). -/
structure Stats where
  val : Int
  date : Nat
  status : String
  l30 : Nat
  h30 : Nat
  l60 : Nat
  h60 : Nat
deriving Repr, DecidableEq

/-- The inner closure `count(limit_days)` of calc_stats (src/main.py lines
119-123): slice the first limit_days points, count values strictly below
LIMIT_LOW and strictly above LIMIT_HIGH. -/
def count (data : List SentimentPoint) (limit_days : Nat) : Nat × Nat :=
  let sub_data := data.take limit_days
  ((sub_data.filter (fun d => d.value < LIMIT_LOW)).length,
   (sub_data.filter (fun d => LIMIT_HIGH < d.value)).length)

/-- calc_stats (src/main.py lines 113-139). `none` input models Python None;
`if not data` sends both None and the empty list to None. -/
def calc_stats : Option (List SentimentPoint) → Option Stats
  | none => none
  | some [] => none
  | some (d0 :: rest) =>
      let data := d0 :: rest
      let c30 := count data 30
      let c60 := count data 60
      let status :=
        if d0.value < LIMIT_LOW then "极度恐慌 (机会)"
        else if LIMIT_HIGH < d0.value then "极度贪婪 (风险)"
        else "中性震荡"
      some ⟨d0.value, d0.date, status, c30.1, c30.2, c60.1, c60.2⟩

/-- Spec-side classification (§4.4 of the spec), parameterized by a
per-source threshold pair as §3 requires. -/
inductive Classification where
  | Panic
  | Greed
  | Neutral
deriving Repr, DecidableEq

/-- Modelled from the spec: "`classification` = Panic if `currentValue <
low`, Greed if `currentValue > high`, else Neutral", with `low`/`high` a
per-market-source threshold pair. -/
def classifySpec (low high v : Int) : Classification :=
  if v < low then .Panic else if high < v then .Greed else .Neutral

/-- The status string calc_stats renders for each classification. -/
def statusString : Classification → String
  | .Panic => "极度恐慌 (机会)"
  | .Greed => "极度贪婪 (风险)"
  | .Neutral => "中性震荡"

/-- C1. Window statistics: for a non-empty series, calc_stats counts, over
the first min(w, len) points for w ∈ {30, 60}, how many values are strictly
below LIMIT_LOW and how many are strictly above LIMIT_HIGH; the slice
data[:w] has exactly min(w, len) points. -/
theorem calc_stats_window_counts (d0 : SentimentPoint) (rest : List SentimentPoint) :
    ∃ s, calc_stats (some (d0 :: rest)) = some s ∧
      s.l30 = (((d0 :: rest).take 30).filter (fun d => d.value < LIMIT_LOW)).length ∧
      s.h30 = (((d0 :: rest).take 30).filter (fun d => LIMIT_HIGH < d.value)).length ∧
      s.l60 = (((d0 :: rest).take 60).filter (fun d => d.value < LIMIT_LOW)).length ∧
      s.h60 = (((d0 :: rest).take 60).filter (fun d => LIMIT_HIGH < d.value)).length ∧
      ((d0 :: rest).take 30).length = min 30 (d0 :: rest).length ∧
      ((d0 :: rest).take 60).length = min 60 (d0 :: rest).length := by
  refine ⟨_, rfl, ?_, ?_, ?_, ?_, ?_, ?_⟩ <;>
    simp [count, List.length_take] <;> omega

/-- C2. Classification: for a non-empty series the status is the panic
string exactly when the current value is strictly below LIMIT_LOW, the greed
string exactly when strictly above LIMIT_HIGH, and the neutral string
otherwise; moreover the current value and date are those of series[0], and
the status agrees with the spec classifier at thresholds (25, 75), so values
25 and 75 classify Neutral, 24 Panic, 76 Greed. -/
theorem calc_stats_classification (d0 : SentimentPoint) (rest : List SentimentPoint) :
    ∃ s, calc_stats (some (d0 :: rest)) = some s ∧
      s.val = d0.value ∧ s.date = d0.date ∧
      (s.status = "极度恐慌 (机会)" ↔ d0.value < LIMIT_LOW) ∧
      (s.status = "极度贪婪 (风险)" ↔ LIMIT_HIGH < d0.value) ∧
      (s.status = "中性震荡" ↔ (LIMIT_LOW ≤ d0.value ∧ d0.value ≤ LIMIT_HIGH)) ∧
      s.status = statusString (classifySpec LIMIT_LOW LIMIT_HIGH d0.value) := by
  refine ⟨_, rfl, rfl, rfl, ?_, ?_, ?_, ?_⟩
  · constructor
    · intro h
      by_contra hlt
      simp only [if_neg hlt] at h
      split at h <;> simp_all
    · intro h; simp [if_pos h]
  · constructor
    · intro h
      by_contra hgt
      rcases lt_or_le d0.value LIMIT_LOW with hl | hl
      · simp [if_pos hl] at h
      · simp [if_neg (not_lt.mpr hl), if_neg hgt] at h
    · intro h
      have hl : ¬ d0.value < LIMIT_LOW := by
        simp only [LIMIT_LOW, LIMIT_HIGH] at *; omega
      simp [if_neg hl, if_pos h]
  · constructor
    · intro h
      constructor
      · by_contra hl
        simp only [not_le] at hl
        simp [if_pos hl] at h
      · by_contra hh
        simp only [not_le] at hh
        have hl : ¬ d0.value < LIMIT_LOW := by
          simp only [LIMIT_LOW, LIMIT_HIGH] at *; omega
        simp [if_neg hl, if_pos hh] at h
    · rintro ⟨hl, hh⟩
      simp [if_neg (not_lt.mpr hl), if_neg (not_lt.mpr hh)]
  · unfold classifySpec statusString
    split
    · simp_all
    · split <;> simp_all

/-- C6. Window monotonicity: when the series has at least 60 points (in fact
for any series), the 30-day window is a prefix of the 60-day window, so
l30 ≤ l60 and h30 ≤ h60. -/
theorem calc_stats_window_monotone (data : List SentimentPoint)
    (h : 60 ≤ data.length) (s : Stats) (hs : calc_stats (some data) = some s) :
    s.l30 ≤ s.l60 ∧ s.h30 ≤ s.h60 := by
  have hsub : (data.take 30).Sublist (data.take 60) := by
    have h3060 : (data.take 60).take 30 = data.take 30 := by
      rw [List.take_take]
      norm_num
    rw [← h3060]
    exact List.take_sublist 30 (data.take 60)
  cases data with
  | nil => simp [calc_stats] at hs
  | cons d0 rest =>
      simp only [calc_stats] at hs
      obtain rfl := Option.some.inj hs
      constructor
      · simpa [count] using
          (List.Sublist.filter (fun d => decide (d.value < LIMIT_LOW)) hsub).length_le
      · simpa [count] using
          (List.Sublist.filter (fun d => decide (LIMIT_HIGH < d.value)) hsub).length_le

/-- Witness for C6 at a concrete 60-point series. -/
theorem calc_stats_window_monotone_witness :
    60 ≤ (List.replicate 60 (⟨0, 50⟩ : SentimentPoint)).length ∧
      calc_stats (some (List.replicate 60 (⟨0, 50⟩ : SentimentPoint))) =
        some ⟨50, 0, "中性震荡", 0, 0, 0, 0⟩ ∧
      ((⟨50, 0, "中性震荡", 0, 0, 0, 0⟩ : Stats).l30 ≤ (⟨50, 0, "中性震荡", 0, 0, 0, 0⟩ : Stats).l60 ∧
        (⟨50, 0, "中性震荡", 0, 0, 0, 0⟩ : Stats).h30 ≤ (⟨50, 0, "中性震荡", 0, 0, 0, 0⟩ : Stats).h60) :=
  ⟨by decide, by decide,
    calc_stats_window_monotone (List.replicate 60 (⟨0, 50⟩ : SentimentPoint))
      (by decide) ⟨50, 0, "中性震荡", 0, 0, 0, 0⟩ (by decide)⟩

/-- One row of the yfinance close-price series: a day key and a closing
price. -/
abbrev PriceRow := Nat × ℚ

/-- The pandas `close.diff()` deltas, with the leading NaN removed: entry j
is close[j+1] - close[j], so the delta at pandas row index i (i ≥ 1) is
`deltas close` at position i - 1. -/
def deltas (close : List ℚ) : List ℚ :=
  (List.range (close.length - 1)).map (fun i => close.getD (i + 1) 0 - close.getD i 0)

/-- `delta.clip(lower=0).rolling(14).mean()` at pandas row index i ≥ 14: the
average positive part of the 14 trailing deltas (rows i-13 .. i, which are
positions i-14 .. i-1 of `deltas`). For i < 14 the pandas value is NaN
(incomplete window); that case is excluded by `rsiAt` below. -/
def gainAvg (close : List ℚ) (i : Nat) : ℚ :=
  ((((deltas close).drop (i - 14)).take 14).map (fun d => max d 0)).sum / 14

/-- `-delta.clip(upper=0).rolling(14).mean()` at pandas row index i ≥ 14:
the average magnitude of the negative part of the 14 trailing deltas. -/
def lossAvg (close : List ℚ) (i : Nat) : ℚ :=
  ((((deltas close).drop (i - 14)).take 14).map (fun d => max (-d) 0)).sum / 14

/-- The RSI value `100 - 100/(1+rs)` at pandas row index i, as float
arithmetic produces it: NaN (`none`) when the rolling window is incomplete
(i < 14) or the row does not exist, and for avgLoss = 0 either NaN (0/0,
when avgGain = 0 too) or the saturated value 100 (x/0 = +inf for x > 0, and
100 - 100/(1+inf) = 100). `dropna()` removes exactly the `none` rows. -/
def rsiAt (close : List ℚ) (i : Nat) : Option ℚ :=
  if i < 14 ∨ close.length ≤ i then none
  else if lossAvg close i = 0 then
    (if gainAvg close i = 0 then none else some 100)
  else some (100 - 100 / (1 + gainAvg close i / lossAvg close i))

/-- The defined RSI rows in pandas index order (oldest first), each value
truncated by Python int(): the series `rsi.dropna()` mapped to dicts. -/
def rsiRows (ps : List PriceRow) : List SentimentPoint :=
  (List.range ps.length).filterMap (fun i =>
    (rsiAt (ps.map Prod.snd) i).map (fun v => ⟨(ps.getD i (0, 0)).1, pyInt v⟩))

/-- calculate_rsi_history (src/main.py lines 21-49): `none` models the
`df.empty` / exception paths, otherwise `rsi.dropna().iloc[-65:][::-1]`
rendered as dicts — the last at most 65 defined rows, newest first. -/
def calculate_rsi_history (ps : List PriceRow) : Option (List SentimentPoint) :=
  if ps.isEmpty then none
  else some (((rsiRows ps).drop ((rsiRows ps).length - 65)).reverse)

/-- Each delta of a strictly increasing price series is positive. -/
lemma deltas_pos (ps : List PriceRow) (hinc : List.Chain' (fun a b => a.2 < b.2) ps) :
    ∀ d ∈ deltas (ps.map Prod.snd), 0 < d := by
  intro d hd
  simp only [deltas, List.mem_map, List.mem_range, List.length_map] at hd
  obtain ⟨i, hi, rfl⟩ := hd
  have h1 : i + 1 < (ps.map Prod.snd).length := by simp; omega
  have h0 : i < (ps.map Prod.snd).length := by simp; omega
  rw [List.getD_eq_getElem _ _ h1, List.getD_eq_getElem _ _ h0]
  have hc := List.chain'_iff_get.mp hinc i (by omega)
  simp only [List.get_eq_getElem] at hc
  simp only [List.getElem_map]
  have : (ps[i]).2 < (ps[i + 1]).2 := hc
  linarith

/-- The rolling window at a valid row index always holds exactly 14 deltas. -/
lemma window_length (close : List ℚ) (i : Nat) (h14 : 14 ≤ i) (hi : i < close.length) :
    (((deltas close).drop (i - 14)).take 14).length = 14 := by
  simp only [List.length_take, List.length_drop, deltas, List.length_map, List.length_range]
  omega

/-- When every delta in the rolling window is positive, avgLoss is 0,
avgGain is positive, and the RSI value saturates to exactly 100. -/
lemma rsiAt_saturated (close : List ℚ) (i : Nat) (h14 : 14 ≤ i) (hi : i < close.length)
    (hwin : ∀ d ∈ ((deltas close).drop (i - 14)).take 14, 0 < d) :
    rsiAt close i = some 100 := by
  have hloss : lossAvg close i = 0 := by
    unfold lossAvg
    rw [List.sum_eq_zero, zero_div]
    intro x hx
    obtain ⟨d, hd, rfl⟩ := List.mem_map.mp hx
    have := hwin d hd
    rw [max_eq_right]
    linarith
  have hgain : gainAvg close i ≠ 0 := by
    unfold gainAvg
    have hpos : 0 < ((((deltas close).drop (i - 14)).take 14).map (fun d => max d 0)).sum := by
      apply List.sum_pos
      · intro x hx
        obtain ⟨d, hd, rfl⟩ := List.mem_map.mp hx
        exact lt_of_lt_of_le (hwin d hd) (le_max_left d 0)
      · apply List.ne_nil_of_length_pos
        rw [List.length_map, window_length close i h14 hi]
        omega
    positivity
  unfold rsiAt
  rw [if_neg (by simp only [not_or, not_lt, not_le]; exact ⟨h14, hi⟩), if_pos hloss,
    if_neg hgain]

/-- Rows with an incomplete rolling window carry no RSI value. -/
lemma rsiAt_of_lt_14 (close : List ℚ) (i : Nat) (h : i < 14) : rsiAt close i = none := by
  unfold rsiAt
  rw [if_pos (Or.inl h)]

/-- When every delta in the rolling window is zero (flat prices), both
averages are 0 and the 0/0 row is dropped (NaN). -/
lemma rsiAt_zero_window (close : List ℚ) (i : Nat) (h14 : 14 ≤ i) (hi : i < close.length)
    (hz : ∀ d ∈ ((deltas close).drop (i - 14)).take 14, d = 0) :
    rsiAt close i = none := by
  have hgain : gainAvg close i = 0 := by
    unfold gainAvg
    rw [List.sum_eq_zero, zero_div]
    intro x hx
    obtain ⟨d, hd, rfl⟩ := List.mem_map.mp hx
    rw [hz d hd]
    simp
  have hloss : lossAvg close i = 0 := by
    unfold lossAvg
    rw [List.sum_eq_zero, zero_div]
    intro x hx
    obtain ⟨d, hd, rfl⟩ := List.mem_map.mp hx
    rw [hz d hd]
    simp
  unfold rsiAt
  rw [if_neg (by simp only [not_or, not_lt, not_le]; exact ⟨h14, hi⟩), if_pos hloss,
    if_pos hgain]

/-- C4. RSI saturation: on a closing-price series that is strictly
increasing and has at least 15 points, calculate_rsi_history succeeds with a
non-empty series all of whose values are exactly 100 — the avgLoss = 0 case
saturates rather than failing. -/
theorem rsi_saturates_at_100 (ps : List PriceRow) (h15 : 15 ≤ ps.length)
    (hinc : List.Chain' (fun a b => a.2 < b.2) ps) :
    ∃ l, calculate_rsi_history ps = some l ∧ l ≠ [] ∧ ∀ p ∈ l, p.value = 100 := by
  have hclose : (ps.map Prod.snd).length = ps.length := by simp
  have hne : ¬ ps.isEmpty := by
    cases ps
    · simp at h15
    · simp
  have hval : ∀ i, 14 ≤ i → i < ps.length → rsiAt (ps.map Prod.snd) i = some 100 := by
    intro i h14 hi
    apply rsiAt_saturated _ _ h14 (by omega)
    intro d hd
    exact deltas_pos ps hinc d (List.mem_of_mem_drop (List.mem_of_mem_take hd))
  refine ⟨_, by rw [calculate_rsi_history, if_neg hne], ?_, ?_⟩
  · have hmem : (⟨(ps.getD 14 (0, 0)).1, pyInt 100⟩ : SentimentPoint) ∈ rsiRows ps := by
      apply List.mem_filterMap.mpr
      refine ⟨14, List.mem_range.mpr (by omega), ?_⟩
      rw [hval 14 le_rfl (by omega)]
      rfl
    have hpos : 0 < (rsiRows ps).length := by
      rw [List.length_pos]
      intro h
      rw [h] at hmem
      exact List.not_mem_nil _ hmem
    apply List.ne_nil_of_length_pos
    rw [List.length_reverse, List.length_drop]
    omega
  · intro p hp
    rw [List.mem_reverse] at hp
    have hp' : p ∈ rsiRows ps := List.mem_of_mem_drop hp
    obtain ⟨i, hi, hf⟩ := List.mem_filterMap.mp hp'
    rw [List.mem_range] at hi
    by_cases h14 : 14 ≤ i
    · rw [hval i h14 hi] at hf
      obtain rfl := Option.some.inj hf
      show pyInt 100 = 100
      norm_num [pyInt]
    · rw [rsiAt_of_lt_14 _ _ (by omega)] at hf
      exact absurd hf (by simp)

/-- Concrete strictly increasing 15-point price series. -/
def incPrices15 : List PriceRow :=
  [(0, 1), (1, 2), (2, 3), (3, 4), (4, 5), (5, 6), (6, 7), (7, 8), (8, 9), (9, 10),
   (10, 11), (11, 12), (12, 13), (13, 14), (14, 15)]

/-- Witness for C4 at a concrete strictly increasing 15-point series. -/
theorem rsi_saturates_at_100_witness :
    (15 ≤ incPrices15.length ∧ List.Chain' (fun a b : PriceRow => a.2 < b.2) incPrices15) ∧
      ∃ l, calculate_rsi_history incPrices15 = some l ∧ l ≠ [] ∧ ∀ p ∈ l, p.value = 100 :=
  ⟨⟨by decide, by norm_num [incPrices15, List.chain'_cons, List.chain'_singleton]⟩,
    rsi_saturates_at_100 incPrices15 (by decide)
      (by norm_num [incPrices15, List.chain'_cons, List.chain'_singleton])⟩

/-- C7 (amended). Insufficient history: on an empty download
calculate_rsi_history fails (None); on a non-empty input with fewer than 15
points it instead succeeds with the empty series; and in every successful
output each emitted point stems from an input row of index at least 14 — the
first 14 rows are never emitted. -/
theorem rsi_insufficient_history (ps : List PriceRow) :
    (ps = [] → calculate_rsi_history ps = none) ∧
    (ps ≠ [] → ps.length < 15 → calculate_rsi_history ps = some []) ∧
    (∀ l, calculate_rsi_history ps = some l →
      ∀ p ∈ l, ∃ i, 14 ≤ i ∧ i < ps.length ∧ p.date = (ps.getD i (0, 0)).1) := by
  refine ⟨?_, ?_, ?_⟩
  · rintro rfl
    rfl
  · intro hne hlen
    have hrows : rsiRows ps = [] := by
      rw [rsiRows, List.filterMap_eq_nil_iff]
      intro i hi
      rw [List.mem_range] at hi
      rw [rsiAt_of_lt_14 _ _ (by omega)]
      rfl
    rw [calculate_rsi_history, if_neg (by simpa using hne), hrows]
    rfl
  · intro l hl p hp
    have hne : ¬ ps.isEmpty := by
      intro h
      rw [calculate_rsi_history, if_pos h] at hl
      exact absurd hl (by simp)
    rw [calculate_rsi_history, if_neg hne] at hl
    obtain rfl := Option.some.inj hl
    rw [List.mem_reverse] at hp
    obtain ⟨i, hi, hf⟩ := List.mem_filterMap.mp (List.mem_of_mem_drop hp)
    rw [List.mem_range] at hi
    cases hr : rsiAt (ps.map Prod.snd) i with
    | none => rw [hr] at hf; exact absurd hf (by simp)
    | some v =>
        rw [hr] at hf
        obtain rfl := Option.some.inj hf
        refine ⟨i, ?_, hi, rfl⟩
        by_contra h14
        rw [rsiAt_of_lt_14 _ _ (by omega)] at hr
        exact absurd hr (by simp)

/-- Concrete 14-point price series (one short of the 15 needed). -/
def shortPrices14 : List PriceRow :=
  [(0, 1), (1, 2), (2, 3), (3, 4), (4, 5), (5, 6), (6, 7), (7, 8), (8, 9), (9, 10),
   (10, 11), (11, 12), (12, 13), (13, 14)]

/-- Counterexample to C7 as stated: on a 14-point input the transform does
not fail — it succeeds with the empty series. -/
theorem rsi_insufficient_history_cex :
    shortPrices14.length = 14 ∧
      calculate_rsi_history shortPrices14 = some [] ∧
      calculate_rsi_history shortPrices14 ≠ none := by
  refine ⟨by decide, by decide, by decide⟩

/-- Witness for C7 (amended) at the concrete 14-point series and at the
empty input. -/
theorem rsi_insufficient_history_witness :
    calculate_rsi_history shortPrices14 = some [] ∧ calculate_rsi_history [] = none :=
  ⟨(rsi_insufficient_history shortPrices14).2.1 (by decide) (by decide),
    (rsi_insufficient_history []).1 rfl⟩

/-- C10. Flat-price windows are dropped: a row whose 14 trailing deltas are
all zero gets NaN (0/0) and is removed by dropna; hence a wholly constant
non-empty price series yields the empty series, and calc_stats then returns
None exactly as for a failed source. -/
theorem rsi_flat_window_dropped (close : List ℚ) (i : Nat) (ps : List PriceRow) (c : ℚ) :
    (14 ≤ i → i < close.length →
      (∀ d ∈ ((deltas close).drop (i - 14)).take 14, d = 0) →
      rsiAt close i = none) ∧
    ((∀ p ∈ ps, p.2 = c) → ps ≠ [] → calculate_rsi_history ps = some []) ∧
    calc_stats (some []) = calc_stats none ∧ calc_stats (some []) = none := by
  refine ⟨rsiAt_zero_window close i, ?_, rfl, rfl⟩
  intro hc hne
  have hdz : ∀ d ∈ deltas (ps.map Prod.snd), d = 0 := by
    intro d hd
    simp only [deltas, List.mem_map, List.mem_range, List.length_map] at hd
    obtain ⟨j, hj, rfl⟩ := hd
    have h1 : j + 1 < (ps.map Prod.snd).length := by simp; omega
    have h0 : j < (ps.map Prod.snd).length := by simp; omega
    rw [List.getD_eq_getElem _ _ h1, List.getD_eq_getElem _ _ h0]
    simp only [List.getElem_map]
    rw [hc _ (List.getElem_mem _), hc _ (List.getElem_mem _)]
    ring
  have hrows : rsiRows ps = [] := by
    rw [rsiRows, List.filterMap_eq_nil_iff]
    intro j hj
    rw [List.mem_range] at hj
    by_cases h14 : 14 ≤ j
    · rw [rsiAt_zero_window _ _ h14 (by simp; omega)
        (fun d hd => hdz d (List.mem_of_mem_drop (List.mem_of_mem_take hd)))]
      rfl
    · rw [rsiAt_of_lt_14 _ _ (by omega)]
      rfl
  rw [calculate_rsi_history, if_neg (by simpa using hne), hrows]
  rfl

/-- Concrete constant 20-point price series. -/
def flatPrices20 : List PriceRow :=
  (List.range 20).map (fun i => (i, (50 : ℚ)))

/-- Witness for C10 at a concrete flat window and a concrete constant
series. -/
theorem rsi_flat_window_dropped_witness :
    rsiAt (flatPrices20.map Prod.snd) 14 = none ∧
      calculate_rsi_history flatPrices20 = some [] :=
  ⟨(rsi_flat_window_dropped (flatPrices20.map Prod.snd) 14 flatPrices20 50).1
      (by decide) (by decide)
      (by norm_num [flatPrices20, deltas, List.range_succ]),
    (rsi_flat_window_dropped (flatPrices20.map Prod.snd) 14 flatPrices20 50).2.1
      (by simp [flatPrices20]) (by simp [flatPrices20])⟩

/-- Unfolding calc_stats on a non-empty series: the status field is the
rendering of the spec classifier at the global constants. -/
lemma calc_stats_cons_eq (d0 : SentimentPoint) (rest : List SentimentPoint) :
    calc_stats (some (d0 :: rest)) =
      some ⟨d0.value, d0.date, statusString (classifySpec LIMIT_LOW LIMIT_HIGH d0.value),
        (count (d0 :: rest) 30).1, (count (d0 :: rest) 30).2,
        (count (d0 :: rest) 60).1, (count (d0 :: rest) 60).2⟩ := by
  simp only [calc_stats, classifySpec]
  by_cases h1 : d0.value < LIMIT_LOW
  · simp [h1, statusString]
  · by_cases h2 : LIMIT_HIGH < d0.value
    · simp [h1, h2, statusString]
    · simp [h1, h2, statusString]

/-- C8 (amended). The threshold pair is a process-wide constant (25, 75)
applied uniformly to every series handed to calc_stats, whatever source
produced it; no per-source band exists. -/
theorem thresholds_are_global_constants (d0 : SentimentPoint) (rest : List SentimentPoint) :
    LIMIT_LOW = 25 ∧ LIMIT_HIGH = 75 ∧
      ∃ s, calc_stats (some (d0 :: rest)) = some s ∧
        s.status = statusString (classifySpec 25 75 d0.value) ∧
        s.l30 = (((d0 :: rest).take 30).filter (fun d => d.value < 25)).length ∧
        s.h30 = (((d0 :: rest).take 30).filter (fun d => 75 < d.value)).length :=
  ⟨rfl, rfl, _, calc_stats_cons_eq d0 rest, rfl, rfl, rfl⟩

/-- Price series whose latest RSI value is 71 (ten unit gains, four unit
losses in the last 14 deltas). -/
def rsiTrendPrices : List PriceRow :=
  [(0, 100), (1, 101), (2, 102), (3, 103), (4, 104), (5, 105), (6, 106), (7, 107),
   (8, 108), (9, 109), (10, 110), (11, 109), (12, 108), (13, 107), (14, 106)]

/-- Counterexample to C8 as stated: an RSI-derived series with current value
71 is classified by the code with the same global 25/75 bands as every other
source (status neutral, no greed day counted), whereas the claimed per-source
30/70 bands for RSI would classify it Greed. -/
theorem thresholds_per_source_cex :
    calculate_rsi_history rsiTrendPrices = some [⟨14, 71⟩] ∧
      calc_stats (calculate_rsi_history rsiTrendPrices) =
        some ⟨71, 14, "中性震荡", 0, 0, 0, 0⟩ ∧
      classifySpec 30 70 71 = Classification.Greed ∧
      statusString (classifySpec 30 70 71) ≠ "中性震荡" := by
  have h1 : calculate_rsi_history rsiTrendPrices = some [⟨14, 71⟩] := by
    norm_num [calculate_rsi_history, rsiRows, rsiAt, gainAvg, lossAvg, deltas, pyInt,
      rsiTrendPrices, List.range_succ, max_def, List.filterMap_cons, List.filterMap_nil,
      List.sum_cons, List.sum_nil]
  refine ⟨h1, ?_, by decide, by decide⟩
  rw [h1]
  decide

/-- One record of the CNN fear-and-greed payload: a millisecond timestamp
field x and a raw value field y. -/
structure CnnRaw where
  x : Nat
  y : ℚ
deriving Repr, DecidableEq

/-- The CNN branch of get_us_data (src/main.py lines 62-67): sort by
timestamp descending (Python sort is stable, as is mergeSort) and render
each record as a date/int dict. No truncation is applied. -/
def cnnNormalize (data : List CnnRaw) : List SentimentPoint :=
  (data.mergeSort (fun a b => b.x ≤ a.x)).map
    (fun d => ⟨d.x / 86400000, pyInt d.y⟩)

/-- get_us_data (src/main.py lines 52-72). The first argument models the
whole CNN try-block (error = any exception while fetching or decoding);
the second models the yfinance download for the RSI fallback. -/
def get_us_data (cnn : Except Unit (List CnnRaw)) (gspc : Option (List PriceRow)) :
    Option (List SentimentPoint) × String :=
  match cnn with
  | .ok data => (some (cnnNormalize data), "CNN 官方数据")
  | .error _ =>
      ((match gspc with
        | none => none
        | some ps => calculate_rsi_history ps), "S&P 500 RSI (替代)")

/-- One record of the CoinGlass payload: a millisecond timestamp and a raw
value. -/
structure CgRaw where
  time : Nat
  values : ℚ
deriving Repr, DecidableEq

/-- The decoded CoinGlass response body: a status code string and the data
list. -/
structure CgResponse where
  code : String
  data : List CgRaw
deriving Repr, DecidableEq

/-- The success branch of get_crypto_data (src/main.py lines 92-100): sort
by timestamp descending, keep the first 80 records, render as dicts. -/
def cgNormalize (data : List CgRaw) : List SentimentPoint :=
  ((data.mergeSort (fun a b => b.time ≤ a.time)).take 80).map
    (fun d => ⟨d.time / 86400000, pyInt d.values⟩)

/-- get_crypto_data (src/main.py lines 74-105). A non-"0" code raises and is
caught by the same handler as a transport error, yielding (None, 获取失败). -/
def get_crypto_data (res : Except Unit CgResponse) : Option (List SentimentPoint) × String :=
  match res with
  | .error _ => (none, "获取失败")
  | .ok r =>
      if r.code ≠ "0" then (none, "获取失败")
      else (some (cgNormalize r.data), "CoinGlass")

/-- get_cn_data (src/main.py lines 107-110): single RSI source, fixed
label. -/
def get_cn_data (ashare : Option (List PriceRow)) : Option (List SentimentPoint) × String :=
  ((match ashare with
    | none => none
    | some ps => calculate_rsi_history ps), "沪深300 RSI (Yahoo)")

/-- C3 (amended). Fallback behaviour as implemented: in get_us_data a source
attempt fails only by raising (transport error, bad status surfacing as a
decode error, malformed payload); a successfully decoded but empty CNN
series still wins and is returned under the CNN label without trying the
RSI fallback. When CNN raises, the RSI fallback's result is returned under
the RSI label even when it also failed — the failed label 获取失败 is only
produced by get_crypto_data, whose single source yields (None, 获取失败) on
any exception or non-"0" status code and the normalized series otherwise.
Downstream, calc_stats maps an empty winning series to the same None as a
failed market. -/
theorem fallback_chain (data : List CnnRaw) (gspc : Option (List PriceRow))
    (ps : List PriceRow) (r : CgResponse) :
    get_us_data (Except.ok data) gspc = (some (cnnNormalize data), "CNN 官方数据") ∧
    get_us_data (Except.error ()) (some ps) =
      (calculate_rsi_history ps, "S&P 500 RSI (替代)") ∧
    get_us_data (Except.error ()) none = (none, "S&P 500 RSI (替代)") ∧
    get_crypto_data (Except.error ()) = (none, "获取失败") ∧
    (r.code ≠ "0" → get_crypto_data (Except.ok r) = (none, "获取失败")) ∧
    (r.code = "0" → get_crypto_data (Except.ok r) =
      (some (cgNormalize r.data), "CoinGlass")) ∧
    calc_stats (some []) = none := by
  refine ⟨rfl, rfl, rfl, rfl, ?_, ?_, rfl⟩
  · intro h
    simp [get_crypto_data, h]
  · intro h
    simp [get_crypto_data, h]

/-- Witness for C3 (amended) at concrete responses. -/
theorem fallback_chain_witness :
    get_crypto_data (Except.ok ⟨"4001", []⟩) = (none, "获取失败") ∧
      get_crypto_data (Except.ok ⟨"0", []⟩) = (some (cgNormalize []), "CoinGlass") :=
  ⟨(fallback_chain [] none [] ⟨"4001", []⟩).2.2.2.2.1 (by decide),
    (fallback_chain [] none [] ⟨"0", []⟩).2.2.2.2.2.1 rfl⟩

/-- Counterexample to C3 as stated: a well-formed CNN response with an empty
series wins without any fallback to the next source (label CNN, not a failed
label), and when every source of the US market fails the resolver returns
the RSI label, not a failed label. -/
theorem fallback_chain_cex :
    get_us_data (Except.ok []) none = (some [], "CNN 官方数据") ∧
      calc_stats (get_us_data (Except.ok []) none).1 = none ∧
      get_us_data (Except.error ()) none = (none, "S&P 500 RSI (替代)") ∧
      (get_us_data (Except.error ()) none).2 ≠ "获取失败" := by
  have h0 : cnnNormalize [] = [] := by simp [cnnNormalize]
  refine ⟨?_, ?_, rfl, by decide⟩
  · show (some (cnnNormalize []), _) = _
    rw [h0]
  · show calc_stats (some (cnnNormalize [])) = none
    rw [h0]
    rfl

/-- The average gain is a sum of nonnegative clipped deltas. -/
lemma gainAvg_nonneg (close : List ℚ) (i : Nat) : 0 ≤ gainAvg close i := by
  unfold gainAvg
  apply div_nonneg _ (by norm_num)
  apply List.sum_nonneg
  intro x hx
  obtain ⟨d, hd, rfl⟩ := List.mem_map.mp hx
  exact le_max_right d 0

/-- The average loss is a sum of nonnegative clipped deltas. -/
lemma lossAvg_nonneg (close : List ℚ) (i : Nat) : 0 ≤ lossAvg close i := by
  unfold lossAvg
  apply div_nonneg _ (by norm_num)
  apply List.sum_nonneg
  intro x hx
  obtain ⟨d, hd, rfl⟩ := List.mem_map.mp hx
  exact le_max_right (-d) 0

/-- Every defined RSI value lies in [0, 100]. -/
lemma rsiAt_val_bounds (close : List ℚ) (i : Nat) (v : ℚ) (h : rsiAt close i = some v) :
    0 ≤ v ∧ v ≤ 100 := by
  unfold rsiAt at h
  split_ifs at h with h1 h2 h3
  · obtain rfl := Option.some.inj h
    norm_num
  · have hg := gainAvg_nonneg close i
    have hl := lossAvg_nonneg close i
    have hlpos : 0 < lossAvg close i := lt_of_le_of_ne hl (Ne.symm h2)
    have hx0 : 0 ≤ gainAvg close i / lossAvg close i := div_nonneg hg hl
    have hfrac_pos : 0 < 100 / (1 + gainAvg close i / lossAvg close i) := by positivity
    have hfrac_le : 100 / (1 + gainAvg close i / lossAvg close i) ≤ 100 := by
      rw [div_le_iff₀ (by linarith)]
      nlinarith
    obtain rfl := Option.some.inj h
    constructor <;> linarith

/-- Python int() keeps a rational in [0, 100] inside [0, 100]. -/
lemma pyInt_bounds (q : ℚ) (h0 : 0 ≤ q) (h1 : q ≤ 100) : 0 ≤ pyInt q ∧ pyInt q ≤ 100 := by
  unfold pyInt
  rw [if_neg (not_lt.mpr h0)]
  refine ⟨Int.floor_nonneg.mpr h0, ?_⟩
  have h2 := Int.floor_le_floor h1
  norm_num at h2
  exact h2

/-- Anatomy of an emitted RSI row: it stems from a row index in [14, len)
and carries that row's date and truncated RSI value. -/
lemma rsiRows_elem (ps : List PriceRow) (i : Nat) (p : SentimentPoint)
    (hf : ((rsiAt (ps.map Prod.snd) i).map
        (fun v => (⟨(ps.getD i (0, 0)).1, pyInt v⟩ : SentimentPoint))) = some p) :
    14 ≤ i ∧ i < ps.length ∧ p.date = (ps.getD i (0, 0)).1 ∧
      ∃ v, rsiAt (ps.map Prod.snd) i = some v ∧ p.value = pyInt v := by
  cases hr : rsiAt (ps.map Prod.snd) i with
  | none => rw [hr] at hf; exact absurd hf (by simp)
  | some v =>
      rw [hr] at hf
      obtain rfl := Option.some.inj hf
      have hguard : ¬ (i < 14 ∨ (ps.map Prod.snd).length ≤ i) := by
        intro hg
        rw [rsiAt, if_pos hg] at hr
        exact absurd hr (by simp)
      rw [not_or, not_lt, not_le, List.length_map] at hguard
      exact ⟨hguard.1, hguard.2, rfl, v, rfl, rfl⟩

/-- A stable sort by descending key is strictly descending on day keys once
the day keys are pairwise distinct. -/
lemma sortDesc_pairwise {α : Type} (key : α → Nat) (data : List α)
    (hday : List.Pairwise (fun a b => key a / 86400000 ≠ key b / 86400000) data) :
    List.Pairwise (fun a b => key b / 86400000 < key a / 86400000)
      (data.mergeSort (fun a b => decide (key b ≤ key a))) := by
  have hsorted := @List.sorted_mergeSort α (fun a b => decide (key b ≤ key a))
      (by intro a b c hab hbc; simp only [decide_eq_true_eq] at hab hbc ⊢; omega)
      (by intro a b; simp only [Bool.or_eq_true, decide_eq_true_eq]; omega)
      data
  have hperm : data.Perm (data.mergeSort (fun a b => decide (key b ≤ key a))) :=
    (List.mergeSort_perm data _).symm
  have hday2 := hperm.pairwise hday (fun h => h.symm)
  refine (hsorted.and hday2).imp ?_
  rintro a b ⟨h1, h2⟩
  rw [decide_eq_true_eq] at h1
  exact lt_of_le_of_ne (Nat.div_le_div_right h1) h2.symm

/-- C5 (amended). Shape invariants of the produced series: the RSI transform
yields at most 65 points, values in [0, 100], and strictly descending dates
whenever the input dates are strictly ascending. The CoinGlass normalizer
instead truncates to 80 points (not 65), and the CNN normalizer does not
truncate at all; both sort dates strictly descending when the payload
timestamps fall on pairwise distinct days and keep values in [0, 100] only
when the raw values already are. -/
theorem series_shape_invariant (ps : List PriceRow) (l : List SentimentPoint)
    (hl : calculate_rsi_history ps = some l) (cg : List CgRaw) (cnn : List CnnRaw) :
    (l.length ≤ 65 ∧
      (∀ p ∈ l, 0 ≤ p.value ∧ p.value ≤ 100) ∧
      (List.Pairwise (fun a b : PriceRow => a.1 < b.1) ps →
        List.Pairwise (fun p q : SentimentPoint => q.date < p.date) l)) ∧
    ((cgNormalize cg).length ≤ 80 ∧
      ((∀ d ∈ cg, 0 ≤ d.values ∧ d.values ≤ 100) →
        ∀ p ∈ cgNormalize cg, 0 ≤ p.value ∧ p.value ≤ 100) ∧
      (List.Pairwise (fun a b : CgRaw => a.time / 86400000 ≠ b.time / 86400000) cg →
        List.Pairwise (fun p q : SentimentPoint => q.date < p.date) (cgNormalize cg))) ∧
    ((cnnNormalize cnn).length = cnn.length ∧
      ((∀ d ∈ cnn, 0 ≤ d.y ∧ d.y ≤ 100) →
        ∀ p ∈ cnnNormalize cnn, 0 ≤ p.value ∧ p.value ≤ 100) ∧
      (List.Pairwise (fun a b : CnnRaw => a.x / 86400000 ≠ b.x / 86400000) cnn →
        List.Pairwise (fun p q : SentimentPoint => q.date < p.date) (cnnNormalize cnn))) := by
  have hps : l = ((rsiRows ps).drop ((rsiRows ps).length - 65)).reverse := by
    rw [calculate_rsi_history] at hl
    by_cases h : ps.isEmpty
    · rw [if_pos h] at hl
      exact absurd hl (by simp)
    · rw [if_neg h] at hl
      exact (Option.some.inj hl).symm
  refine ⟨⟨?_, ?_, ?_⟩, ⟨?_, ?_, ?_⟩, ⟨?_, ?_, ?_⟩⟩
  · rw [hps, List.length_reverse, List.length_drop]
    omega
  · intro p hp
    rw [hps, List.mem_reverse] at hp
    obtain ⟨i, hi, hf⟩ := List.mem_filterMap.mp (List.mem_of_mem_drop hp)
    obtain ⟨-, -, -, v, hv, hpv⟩ := rsiRows_elem ps i p hf
    rw [hpv]
    obtain ⟨hv0, hv1⟩ := rsiAt_val_bounds _ _ _ hv
    exact pyInt_bounds v hv0 hv1
  · intro hasc
    have hrows : List.Pairwise (fun p q : SentimentPoint => p.date < q.date) (rsiRows ps) := by
      rw [rsiRows, List.pairwise_filterMap]
      refine (List.pairwise_lt_range ps.length).imp ?_
      intro i j hij p hp q hq
      rw [Option.mem_def] at hp hq
      obtain ⟨-, hi, hdi, -⟩ := rsiRows_elem ps i p hp
      obtain ⟨-, hj, hdj, -⟩ := rsiRows_elem ps j q hq
      rw [hdi, hdj, List.getD_eq_getElem _ _ hi, List.getD_eq_getElem _ _ hj]
      have := List.pairwise_iff_get.mp hasc ⟨i, hi⟩ ⟨j, hj⟩ hij
      simpa using this
    rw [hps, List.pairwise_reverse]
    exact List.Pairwise.sublist (List.drop_sublist _ _) hrows
  · rw [cgNormalize, List.length_map, List.length_take]
    omega
  · intro hraw p hp
    rw [cgNormalize] at hp
    obtain ⟨d, hd, rfl⟩ := List.mem_map.mp hp
    have hd' : d ∈ cg := List.mem_mergeSort.mp (List.mem_of_mem_take hd)
    exact pyInt_bounds d.values (hraw d hd').1 (hraw d hd').2
  · intro hday
    rw [cgNormalize, List.pairwise_map]
    exact List.Pairwise.sublist (List.take_sublist _ _)
      (sortDesc_pairwise CgRaw.time cg hday)
  · rw [cnnNormalize, List.length_map, List.length_mergeSort]
  · intro hraw p hp
    rw [cnnNormalize] at hp
    obtain ⟨d, hd, rfl⟩ := List.mem_map.mp hp
    have hd' : d ∈ cnn := List.mem_mergeSort.mp hd
    exact pyInt_bounds d.y (hraw d hd').1 (hraw d hd').2
  · intro hday
    rw [cnnNormalize, List.pairwise_map]
    exact sortDesc_pairwise CnnRaw.x cnn hday

/-- A well-formed 70-day CoinGlass payload (daily entries, values in
range). -/
def cgPayload70 : List CgRaw := (List.range 70).map (fun i => ⟨i * 86400000, 50⟩)

/-- Counterexample to C5 as stated: the CoinGlass normalizer keeps 70 points
of a 70-day payload — more than the claimed 65-point bound — and
get_crypto_data returns that series. -/
theorem series_shape_cex :
    (cgNormalize cgPayload70).length = 70 ∧
      ¬ ((cgNormalize cgPayload70).length ≤ 65) ∧
      get_crypto_data (Except.ok ⟨"0", cgPayload70⟩) =
        (some (cgNormalize cgPayload70), "CoinGlass") := by
  have hlen : (cgNormalize cgPayload70).length = 70 := by
    simp [cgNormalize, cgPayload70, List.length_take, List.length_mergeSort]
  refine ⟨hlen, by omega, by simp [get_crypto_data]⟩

/-- A two-entry CoinGlass payload on distinct days, unsorted. -/
def cgSmall : List CgRaw := [⟨0, 80⟩, ⟨86400000, 20⟩]

/-- A two-entry CNN payload on distinct days. -/
def cnnSmall : List CnnRaw := [⟨0, 30⟩, ⟨86400000, 60⟩]

/-- Witness for C5 (amended) at concrete inputs. -/
theorem series_shape_invariant_witness :
    calculate_rsi_history incPrices15 = some [⟨14, 100⟩] ∧
      ([(⟨14, 100⟩ : SentimentPoint)]).length ≤ 65 ∧
      (∀ p ∈ [(⟨14, 100⟩ : SentimentPoint)], 0 ≤ p.value ∧ p.value ≤ 100) ∧
      (cgNormalize cgSmall).length ≤ 80 ∧
      List.Pairwise (fun p q : SentimentPoint => q.date < p.date) (cgNormalize cgSmall) ∧
      (cnnNormalize cnnSmall).length = cnnSmall.length := by
  have hl : calculate_rsi_history incPrices15 = some [⟨14, 100⟩] := by
    norm_num [calculate_rsi_history, rsiRows, rsiAt, gainAvg, lossAvg, deltas, pyInt,
      incPrices15, List.range_succ, max_def, List.filterMap_cons, List.filterMap_nil,
      List.sum_cons, List.sum_nil]
  have H := series_shape_invariant incPrices15 [⟨14, 100⟩] hl cgSmall cnnSmall
  exact ⟨hl, H.1.1, H.1.2.1, H.2.1.1,
    H.2.1.2.2 (by norm_num [cgSmall, List.pairwise_cons]), H.2.2.1⟩

/-- The shape of one rendered body entry: generate_card_html (src/main.py
lines 148-209) at the branch level — a failure card when stats is missing,
otherwise a stats card whose warning block appears exactly when
h30 ≥ DANGER_DAYS_THRESHOLD, with the optional link section. -/
inductive Card where
  | failure (name : String)
  | stats (name source : String) (s : Stats) (warning : Bool) (link : Option String)
deriving Repr, DecidableEq

/-- generate_card_html at the branch level (see Card). -/
def generate_card (name source : String) (stats : Option Stats) (link : Option String) :
    Card :=
  match stats with
  | none => .failure name
  | some s => .stats name source s (decide (DANGER_DAYS_THRESHOLD ≤ (s.h30 : Int))) link

/-- One entry of the main task list (src/main.py lines 245-249): display
name, the getter's result (series option and source label), and the
optional link. -/
structure MarketTask where
  name : String
  result : Option (List SentimentPoint) × String
  link : Option String
deriving Repr, DecidableEq

/-- `name.split(' ')[0]` of the main loop (src/main.py line 262). -/
def flagIcon (name : String) : String := (name.splitOn " ").headD ""

/-- The title fragment f"\x7bflag_icon\x7d:\x7bstats[val]\x7d" (line 263). -/
def titleFragment (name : String) (s : Stats) : String :=
  flagIcon name ++ ":" ++ toString s.val

/-- The `parts` list accumulated by the main loop (lines 251-263): one
fragment per market whose calc_stats is non-None, in task order. -/
def mainParts (tasks : List MarketTask) : List String :=
  tasks.filterMap (fun t => (calc_stats t.result.1).map (fun s => titleFragment t.name s))

/-- The body cards accumulated by the main loop (line 258), one per task. -/
def mainCards (tasks : List MarketTask) : List Card :=
  tasks.map (fun t => generate_card t.name t.result.2 (calc_stats t.result.1) t.link)

/-- The push title (line 299): reporting date, separator, joined parts. -/
def mainTitle (today : String) (tasks : List MarketTask) : String :=
  today ++ " | " ++ String.intercalate " | " (mainParts tasks)

/-- `if parts:` (line 297) — a push is attempted iff some market produced
stats. -/
def shouldPush (tasks : List MarketTask) : Bool :=
  !(mainParts tasks).isEmpty

/-- C9. Report assembly: every failed market yields a failure card in the
body; every successful market contributes its "flag:value" fragment to the
title parts, and every title part stems from a successful market; the title
is the reporting date followed by the separator-joined parts; and no
delivery is attempted exactly when every market failed. -/
theorem report_assembly (tasks : List MarketTask) (today : String) :
    (∀ t ∈ tasks, calc_stats t.result.1 = none → Card.failure t.name ∈ mainCards tasks) ∧
    (∀ t ∈ tasks, ∀ s, calc_stats t.result.1 = some s →
      titleFragment t.name s ∈ mainParts tasks) ∧
    (∀ x ∈ mainParts tasks, ∃ t ∈ tasks, ∃ s,
      calc_stats t.result.1 = some s ∧ x = titleFragment t.name s) ∧
    mainTitle today tasks = today ++ " | " ++ String.intercalate " | " (mainParts tasks) ∧
    (shouldPush tasks = false ↔ ∀ t ∈ tasks, calc_stats t.result.1 = none) := by
  refine ⟨?_, ?_, ?_, rfl, ?_⟩
  · intro t ht hc
    refine List.mem_map.mpr ⟨t, ht, ?_⟩
    rw [hc]
    rfl
  · intro t ht s hs
    refine List.mem_filterMap.mpr ⟨t, ht, ?_⟩
    rw [hs]
    rfl
  · intro x hx
    obtain ⟨t, ht, hf⟩ := List.mem_filterMap.mp hx
    cases hc : calc_stats t.result.1 with
    | none => rw [hc] at hf; exact absurd hf (by simp)
    | some s =>
        rw [hc] at hf
        exact ⟨t, ht, s, hc, (Option.some.inj hf).symm⟩
  · rw [shouldPush, Bool.not_eq_false', List.isEmpty_iff, mainParts,
      List.filterMap_eq_nil_iff]
    constructor
    · intro h t ht
      have := h t ht
      cases hc : calc_stats t.result.1 with
      | none => rfl
      | some s => rw [hc] at this; exact absurd this (by simp)
    · intro h t ht
      rw [h t ht]
      rfl

/-- Concrete task lists: one failed market; one failed and one successful
market. -/
def tasksAllFailed : List MarketTask :=
  [⟨"🇺🇸 美股", (none, "S&P 500 RSI (替代)"), none⟩]

/-- A failed crypto market next to a successful US market. -/
def tasksMixed : List MarketTask :=
  [⟨"🇺🇸 美股", (some [⟨19723, 80⟩], "CNN 官方数据"), none⟩,
   ⟨"₿ CoinGlass", (none, "获取失败"), none⟩]

/-- Witness for C9 at concrete task lists: with every market failed no push
happens, and the failed market still yields a failure card; with a mixed
list the successful market's fragment is in the parts. -/
theorem report_assembly_witness :
    shouldPush tasksAllFailed = false ∧
      Card.failure "🇺🇸 美股" ∈ mainCards tasksAllFailed ∧
      titleFragment "🇺🇸 美股" ⟨80, 19723, "极度贪婪 (风险)", 0, 1, 0, 1⟩ ∈ mainParts tasksMixed ∧
      Card.failure "₿ CoinGlass" ∈ mainCards tasksMixed :=
  ⟨(report_assembly tasksAllFailed "01-01").2.2.2.2.mpr (by decide),
    (report_assembly tasksAllFailed "01-01").1 ⟨"🇺🇸 美股", (none, "S&P 500 RSI (替代)"), none⟩
      (by decide) (by decide),
    (report_assembly tasksMixed "01-01").2.1 ⟨"🇺🇸 美股", (some [⟨19723, 80⟩], "CNN 官方数据"), none⟩
      (by decide) ⟨80, 19723, "极度贪婪 (风险)", 0, 1, 0, 1⟩ (by decide),
    (report_assembly tasksMixed "01-01").1 ⟨"₿ CoinGlass", (none, "获取失败"), none⟩
      (by decide) (by decide)⟩

end SentimentBot
